import Mathlib

/-!
# Verification of the `ipasir` Rust bindings against their specification

This file shallowly embeds the data model and operations of the `ipasir`
crate (an idiomatic Rust wrapper of the IPASIR incremental-SAT C ABI) and
proves or refutes the frozen claims about it.

The crate contains two generations of bindings:
* the typed model: `types.rs` (`Lit`, `Var`, `Clause`, `LitIter`),
  `interface.rs` (error taxonomy, `IpasirSolver` trait) and
  `ffi/solver.rs` (the FFI-backed `Solver` and its callback trampolines);
* the legacy model: `wrapper.rs` (prefixed `W` here to avoid clashes).

Raw C integers (`c_int`) are embedded as `Int`; the only place where the
fixed width matters is `c_int::min_value()`, embedded as the explicit
constant `intMin = -2^31`. Calls across the foreign boundary are embedded
as traces of emitted calls (`IpasirCall`); backend responses are embedded
as explicit `Int` parameters, since the backend itself is external to the
crate. Loops over raw pointers are embedded fuel-style: a pointer to a
zero-terminated array becomes `arr : Nat → Int`, and a loop becomes a
recursion on a fuel bound returning `Option` — `none` meaning the loop did
not finish within the given fuel.
-/

set_option autoImplicit false

/-- `c_int::min_value()`: the minimum representable `c_int` value. -/
def intMin : Int := -2147483648

/-- `types.rs`: `struct Lit(c_int)` — a literal of the solver. -/
structure Lit where
  val : Int
  deriving DecidableEq, Repr

/-- `types.rs`: `Lit::to_raw` returns the underlying `c_int`. -/
def Lit.to_raw (l : Lit) : Int :=
  l.val

/-- `types.rs`: `struct InvalidLitVal(pub c_int)` — invalid literal value error. -/
structure InvalidLitVal where
  val : Int
  deriving DecidableEq, Repr

/-- `types.rs`: `TryFrom<c_int> for Lit`: err on `0` and `c_int::min_value()`. -/
def Lit.try_from (v : Int) : Except InvalidLitVal Lit :=
  if v = 0 ∨ v = intMin then Except.error ⟨v⟩ else Except.ok ⟨v⟩

/-- `interface.rs`: `enum ResponseError` — invalid response from the backend. -/
inductive ResponseError where
  | Solve (invalid : Int)
  | Val (invalid : Int)
  | Failed (invalid : Int)
  deriving DecidableEq, Repr

/-- `interface.rs`: `enum SolverErrorKind`. -/
inductive SolverErrorKind where
  | Lit (e : InvalidLitVal)
  | Response (e : ResponseError)
  | InvalidSolverState
  deriving DecidableEq, Repr

/-- `interface.rs`: `struct SolverError { kind: SolverErrorKind }`. -/
structure SolverError where
  kind : SolverErrorKind
  deriving DecidableEq, Repr

/-- `interface.rs`: `enum SolveResponse`. -/
inductive SolveResponse where
  | Sat
  | Unsat
  | Interrupted
  deriving DecidableEq, Repr

/-- `interface.rs`: `enum LitValue` — the assignment of a literal. -/
inductive LitValue where
  | DontCare
  | True
  | False
  deriving DecidableEq, Repr

/-- `interface.rs`: `enum SolveControl`. -/
inductive SolveControl where
  | Continue
  | Stop
  deriving DecidableEq, Repr

/-!
## The FFI solver (`ffi/solver.rs`)

Each operation's observable behaviour is a function of the raw response the
native backend returns, so the operations are embedded as functions of that
response. `From<ResponseError> for SolverError` and
`From<InvalidLitVal> for SolverError` (`.into()` in the source) are the
`SolverErrorKind.Response` and `SolverErrorKind.Lit` injections.
-/

/-- `ffi/solver.rs`: `Solver::solve` as a function of the backend's raw response. -/
def Ffi.solve (resp : Int) : Except SolverError SolveResponse :=
  if resp = 0 then Except.ok SolveResponse.Interrupted
  else if resp = 10 then Except.ok SolveResponse.Sat
  else if resp = 20 then Except.ok SolveResponse.Unsat
  else Except.error ⟨SolverErrorKind.Response (ResponseError.Solve resp)⟩

/-- `ffi/solver.rs`: `Solver::val` as a function of the queried literal and the
backend's raw response. The error arm is `Err(InvalidLitVal(invalid).into())`,
i.e. the `SolverErrorKind.Lit` injection, exactly as in the source. -/
def Ffi.val (lit : Lit) (resp : Int) : Except SolverError LitValue :=
  if resp = 0 then Except.ok LitValue.DontCare
  else if resp = lit.to_raw then Except.ok LitValue.True
  else if resp = -lit.to_raw then Except.ok LitValue.False
  else Except.error ⟨SolverErrorKind.Lit ⟨resp⟩⟩

/-- `ffi/solver.rs`: `Solver::failed` as a function of the backend's raw response. -/
def Ffi.failed (resp : Int) : Except SolverError Bool :=
  if resp = 0 then Except.ok true
  else if resp = 1 then Except.ok false
  else Except.error ⟨SolverErrorKind.Response (ResponseError.Failed resp)⟩

/-!
## The legacy wrapper (`wrapper.rs`)
-/

/-- `wrapper.rs`: `struct Lit(c_int)`. -/
structure WLit where
  val : Int
  deriving DecidableEq, Repr

/-- `wrapper.rs`: `Lit::to_raw`. -/
def WLit.to_raw (l : WLit) : Int :=
  l.val

/-- `wrapper.rs`: `enum Error`. -/
inductive WError where
  | InvalidLitVal
  | InvalidSolveResult (c : Int)
  | InvalidValResult (c : Int)
  | InvalidFailedResult (c : Int)
  deriving DecidableEq, Repr

/-- `wrapper.rs`: `enum SolveResult`. -/
inductive WSolveResult where
  | Sat
  | Unsat
  | Interrupted
  deriving DecidableEq, Repr

/-- `wrapper.rs`: `enum ValResult`. -/
inductive WValResult where
  | DontCare
  | True
  | False
  deriving DecidableEq, Repr

/-- `wrapper.rs`: `Lit::new` — errs only on `0` (it does not check `intMin`). -/
def WLit.new (v : Int) : Except WError WLit :=
  if v = 0 then Except.error WError.InvalidLitVal else Except.ok ⟨v⟩

/-- `wrapper.rs`: `Solver::solve` as a function of the backend's raw response. -/
def Wrapper.solve (resp : Int) : Except WError WSolveResult :=
  if resp = 0 then Except.ok WSolveResult.Interrupted
  else if resp = 10 then Except.ok WSolveResult.Sat
  else if resp = 20 then Except.ok WSolveResult.Unsat
  else Except.error (WError.InvalidSolveResult resp)

/-- `wrapper.rs`: `Solver::val` as a function of the literal and raw response. -/
def Wrapper.val (lit : WLit) (resp : Int) : Except WError WValResult :=
  if resp = 0 then Except.ok WValResult.DontCare
  else if resp = lit.to_raw then Except.ok WValResult.True
  else if resp = -lit.to_raw then Except.ok WValResult.False
  else Except.error (WError.InvalidValResult resp)

/-- `wrapper.rs`: `Solver::failed` as a function of the backend's raw response. -/
def Wrapper.failed (resp : Int) : Except WError Bool :=
  if resp = 0 then Except.ok true
  else if resp = 1 then Except.ok false
  else Except.error (WError.InvalidFailedResult resp)

/-!
## Clause view and literal iterator (`types.rs`)

The borrowed slice `&[Lit]` becomes a `List Lit`; `std::slice::Iter` becomes
the list of elements not yet yielded, with `next` taking from the front and
`next_back` from the back, and `ExactSizeIterator::len` its length.
-/

/-- `types.rs`: `struct Clause { lits: &[Lit] }` — a borrowed clause view. -/
structure Clause where
  lits : List Lit
  deriving DecidableEq, Repr

/-- `types.rs`: `Clause::len`. -/
def Clause.len (c : Clause) : Nat :=
  c.lits.length

/-- `types.rs`: `Clause::is_empty` — `self.lits.len() == 0`. -/
def Clause.is_empty (c : Clause) : Bool :=
  c.lits.length == 0

/-- `types.rs`: `struct LitIter` over the not-yet-yielded literals. -/
structure LitIter where
  iter : List Lit
  deriving DecidableEq, Repr

/-- `types.rs`: `Clause::iter`. -/
def Clause.iter (c : Clause) : LitIter :=
  ⟨c.lits⟩

/-- `types.rs`: `ExactSizeIterator::len` for `LitIter`. -/
def LitIter.len (it : LitIter) : Nat :=
  it.iter.length

/-- `types.rs`: `Iterator::next` for `LitIter` — yields from the front. -/
def LitIter.next (it : LitIter) : Option Lit × LitIter :=
  match it.iter with
  | [] => (none, ⟨[]⟩)
  | x :: xs => (some x, ⟨xs⟩)

/-- `types.rs`: `DoubleEndedIterator::next_back` for `LitIter` — from the back. -/
def LitIter.next_back (it : LitIter) : Option Lit × LitIter :=
  match it.iter.getLast? with
  | none => (none, it)
  | some x => (some x, ⟨it.iter.dropLast⟩)

/-- Drive `LitIter.next` for at most `fuel` steps, collecting yielded literals. -/
def LitIter.runFwd : Nat → LitIter → List Lit
  | 0, _ => []
  | fuel + 1, it =>
    match it.next with
    | (none, _) => []
    | (some x, it2) => x :: LitIter.runFwd fuel it2

/-- Drive `LitIter.next_back` for at most `fuel` steps, collecting yields. -/
def LitIter.runBwd : Nat → LitIter → List Lit
  | 0, _ => []
  | fuel + 1, it =>
    match it.next_back with
    | (none, _) => []
    | (some x, it2) => x :: LitIter.runBwd fuel it2

/-- Full forward traversal of the iterator (its exact size is enough fuel). -/
def LitIter.toListFwd (it : LitIter) : List Lit :=
  LitIter.runFwd it.len it

/-- Full backward traversal of the iterator. -/
def LitIter.toListBwd (it : LitIter) : List Lit :=
  LitIter.runBwd it.len it

/-!
## Foreign-call traces (`ffi/solver.rs`: `add_clause`)

`add_clause` only emits `ipasir_add` calls; the trace of raw arguments passed
across the boundary is what the claim is about.
-/

/-- One call across the foreign boundary emitted by `add_clause`. -/
inductive IpasirCall where
  | add (arg : Int)
  deriving DecidableEq, Repr

/-- `ffi/solver.rs`: the loop `for lit in lits { ipasir_add(_, lit.to_raw()) }`. -/
def Ffi.add_clause_loop : List Lit → List IpasirCall
  | [] => []
  | l :: ls => IpasirCall.add l.to_raw :: Ffi.add_clause_loop ls

/-- `ffi/solver.rs`: `Solver::add_clause` — the loop, then `ipasir_add(_, 0)`. -/
def Ffi.add_clause_calls (lits : List Lit) : List IpasirCall :=
  Ffi.add_clause_loop lits ++ [IpasirCall.add 0]

/-!
## The learn trampoline (`ffi/solver.rs`: `ipasir_set_learn_callback`)

The learned clause arrives as a bare pointer to a zero-terminated array,
embedded as `arr : Nat → Int`. The source's scan is

```
let mut count_lits = 0;
for n in 0.. {
    if unsafe { *learnt_clause.offset(n) } != 0 {
        count_lits += 1;
    }
}
```

— an unbounded loop with no `break`. It is embedded fuel-style: the state is
the pair `(n, count_lits)`, each fuel step runs one iteration, and `some`
would be returned on a loop exit. Since the source loop has no exit, no
branch of the recursion produces `some`.
-/

/-- `ffi/solver.rs`: the sentinel scan of `ipasir_set_learn_callback`, run for
at most `fuel` iterations from state `(n, count_lits)`; `some count` would
mean the loop exited with final count `count`. -/
def Ffi.learnScanLoop (arr : Nat → Int) : Nat → Nat × Nat → Option Nat
  | 0, _ => none
  | fuel + 1, st =>
    Ffi.learnScanLoop arr fuel (st.1 + 1, st.2 + if arr st.1 ≠ 0 then 1 else 0)

/-- `ffi/solver.rs`: `ipasir_set_learn_callback` — if the scan finished with
`count_lits` literals it would hand the user callback the clause view of the
first `count_lits` entries; `none` means the callback is never invoked. -/
def Ffi.learnTrampoline (arr : Nat → Int) (fuel : Nat) : Option Clause :=
  (Ffi.learnScanLoop arr fuel (0, 0)).map fun count =>
    ⟨(List.range count).map fun i => Lit.mk (arr i)⟩

/-!
## The reference/test backend (`tests.rs`: `TestSolver`)
-/

/-- `tests.rs`: `enum SolverState`. -/
inductive SolverState where
  | Input
  | Sat
  | Unsat
  deriving DecidableEq, Repr

/-- `tests.rs`: `struct TestSolver` (clauses stored as owned literal lists). -/
structure TestSolver where
  state : SolverState
  clauses : List (List Lit)
  assumptions : List Lit
  deriving DecidableEq, Repr

/-- `tests.rs`: `TestSolver::init` via `Default` — state `Input`, no clauses,
no assumptions. -/
def TestSolver.init : TestSolver :=
  ⟨SolverState.Input, [], []⟩

/-- `tests.rs`: `TestSolver::add_clause` — pushes the owned clause. -/
def TestSolver.add_clause (s : TestSolver) (lits : List Lit) : TestSolver :=
  { s with clauses := s.clauses ++ [lits] }

/-- `tests.rs`: `TestSolver::assume` — pushes the literal. -/
def TestSolver.assume (s : TestSolver) (lit : Lit) : TestSolver :=
  { s with assumptions := s.assumptions ++ [lit] }

/-- `tests.rs`: `TestSolver::solve` — sets state to `Sat`, returns `Ok(Sat)`;
it touches neither `clauses` nor `assumptions`. -/
def TestSolver.solve (s : TestSolver) : TestSolver × Except SolverError SolveResponse :=
  ({ s with state := SolverState.Sat }, Except.ok SolveResponse.Sat)

/-- `tests.rs`: `TestSolver::val` — unconditionally `Ok(DontCare)`. -/
def TestSolver.val (_s : TestSolver) (_lit : Lit) : Except SolverError LitValue :=
  Except.ok LitValue.DontCare

/-- `tests.rs`: `TestSolver::failed` — unconditionally `Ok(false)`. -/
def TestSolver.failed (_s : TestSolver) (_lit : Lit) : Except SolverError Bool :=
  Except.ok false

/-!
## The pointer-based clause of the wrapper (`wrapper.rs`: `Clause`)

`Clause(*mut c_int)` is embedded as the array `arr : Nat → Int` behind the
pointer. `Clause::len` is the `while *cur != 0` loop, embedded fuel-style;
`Clause::get` recomputes `len` and indexes below it.
-/

/-- `wrapper.rs`: the `while *cur != 0 { len += 1; cur = cur.offset(1) }` loop
of `Clause::len`, from index `cur` with accumulator `acc`, for at most `fuel`
iterations; `some len` means the loop reached a zero entry. -/
def WClause.lenLoop (arr : Nat → Int) : Nat → Nat → Nat → Option Nat
  | 0, _, _ => none
  | fuel + 1, cur, acc =>
    if arr cur = 0 then some acc else WClause.lenLoop arr fuel (cur + 1) (acc + 1)

/-- `wrapper.rs`: `Clause::get` — `None` for `i >= self.len()`, otherwise
`Some(Lit::new_unchecked(arr[i]))`. The outer `Option` records whether the
`len` scan finished within `fuel`. -/
def WClause.get (arr : Nat → Int) (fuel i : Nat) : Option (Option WLit) :=
  (WClause.lenLoop arr fuel 0 0).map fun len =>
    if i ≥ len then none else some (WLit.mk (arr i))

/-!
## Claims
-/

lemma learnScanLoop_eq_none (arr : Nat → Int) :
    ∀ fuel st, Ffi.learnScanLoop arr fuel st = none := by
  intro fuel
  induction fuel with
  | zero => intro st; rfl
  | succ n ih => intro st; simpa [Ffi.learnScanLoop] using ih _

/-- C1: the claim says the learn trampoline's scan for the zero sentinel
terminates and invokes the user callback with the first `k` literals. The
source loop `for n in 0..` contains no `break`, so the scan never exits and
the callback is never invoked: for every learned-clause array (in particular
every zero-terminated one) and every number of loop iterations, the
trampoline produces no callback invocation. -/
theorem learn_trampoline_never_invokes (arr : Nat → Int) (fuel : Nat) :
    Ffi.learnTrampoline arr fuel = none := by
  simp [Ffi.learnTrampoline, learnScanLoop_eq_none]

/-- C2: the successful arms of `val` map `0`/`lit`/`-lit` to
don't-care/true/false as claimed, but the error arm wraps the invalid
response in the literal-encoding error `InvalidLitVal` (kind
`SolverErrorKind.Lit`), not in the response error `ResponseError.Val` the
claim names: evaluated at literal `1` and backend response `5`. -/
theorem val_error_has_lit_kind :
    Ffi.val ⟨1⟩ 0 = Except.ok LitValue.DontCare ∧
    Ffi.val ⟨1⟩ 1 = Except.ok LitValue.True ∧
    Ffi.val ⟨1⟩ (-1) = Except.ok LitValue.False ∧
    Ffi.val ⟨1⟩ 5 = Except.error ⟨SolverErrorKind.Lit ⟨5⟩⟩ :=
  ⟨rfl, rfl, rfl, rfl⟩

/-- C3: both solvers map a raw solve response of `0` to interrupted, `10` to
satisfiable and `20` to unsatisfiable, and any other response to the tagged
invalid-solve-response error carrying that code. -/
theorem solve_response_mapping :
    Ffi.solve 0 = Except.ok SolveResponse.Interrupted ∧
    Ffi.solve 10 = Except.ok SolveResponse.Sat ∧
    Ffi.solve 20 = Except.ok SolveResponse.Unsat ∧
    Wrapper.solve 0 = Except.ok WSolveResult.Interrupted ∧
    Wrapper.solve 10 = Except.ok WSolveResult.Sat ∧
    Wrapper.solve 20 = Except.ok WSolveResult.Unsat ∧
    ∀ c : Int, c ≠ 0 → c ≠ 10 → c ≠ 20 →
      Ffi.solve c = Except.error ⟨SolverErrorKind.Response (ResponseError.Solve c)⟩ ∧
      Wrapper.solve c = Except.error (WError.InvalidSolveResult c) := by
  refine ⟨rfl, rfl, rfl, rfl, rfl, rfl, ?_⟩
  intro c h0 h10 h20
  exact ⟨by simp [Ffi.solve, h0, h10, h20], by simp [Wrapper.solve, h0, h10, h20]⟩

/-- Witness for C3 at the invalid solve response `7`. -/
theorem solve_response_mapping_witness :
    (7 : Int) ≠ 0 ∧
      Ffi.solve 7 = Except.error ⟨SolverErrorKind.Response (ResponseError.Solve 7)⟩ :=
  ⟨by decide,
    (solve_response_mapping.2.2.2.2.2.2 7 (by decide) (by decide) (by decide)).1⟩

/-- C4: as amended. The typed constructor (`types.rs` `TryFrom<c_int>`) fails
with an encoding error carrying `v` exactly on `0` and `intMin` and otherwise
succeeds preserving the raw value; the legacy wrapper's `Lit::new` rejects
only `0` (its error carries no value) and succeeds on every other value,
`intMin` included, preserving the raw value. -/
theorem lit_construction_spec (v : Int) :
    ((v = 0 ∨ v = intMin) → Lit.try_from v = Except.error ⟨v⟩) ∧
    (v ≠ 0 → v ≠ intMin → ∃ l, Lit.try_from v = Except.ok l ∧ l.to_raw = v) ∧
    (v = 0 → WLit.new v = Except.error WError.InvalidLitVal) ∧
    (v ≠ 0 → ∃ l, WLit.new v = Except.ok l ∧ l.to_raw = v) := by
  refine ⟨fun h => by simp [Lit.try_from, h], fun h0 hm => ?_, fun h => by simp [WLit.new, h],
    fun h0 => ?_⟩
  · exact ⟨⟨v⟩, by simp [Lit.try_from, h0, hm], rfl⟩
  · exact ⟨⟨v⟩, by simp [WLit.new, h0], rfl⟩

/-- Witness for C4 (amended) at `v = 7`. -/
theorem lit_construction_spec_witness :
    (7 : Int) ≠ 0 ∧ ∃ l, Lit.try_from 7 = Except.ok l ∧ l.to_raw = 7 :=
  ⟨by decide, (lit_construction_spec 7).2.1 (by decide) (by decide)⟩

/-- C4 counterexample: the claim asserts that checked literal construction
fails on the minimum representable signed integer, but the wrapper's checked
constructor `Lit::new` succeeds on `intMin`, preserving it as the raw value. -/
theorem wlit_new_accepts_intMin :
    WLit.new intMin = Except.ok ⟨intMin⟩ := rfl

/-- C5: both solvers map a raw failed response of `0` to `true` (the
assumption participated in the unsatisfiability proof), `1` to `false`, and
any other response to the tagged invalid-failed-response error carrying it. -/
theorem failed_response_mapping :
    Ffi.failed 0 = Except.ok true ∧
    Ffi.failed 1 = Except.ok false ∧
    Wrapper.failed 0 = Except.ok true ∧
    Wrapper.failed 1 = Except.ok false ∧
    ∀ c : Int, c ≠ 0 → c ≠ 1 →
      Ffi.failed c = Except.error ⟨SolverErrorKind.Response (ResponseError.Failed c)⟩ ∧
      Wrapper.failed c = Except.error (WError.InvalidFailedResult c) := by
  refine ⟨rfl, rfl, rfl, rfl, ?_⟩
  intro c h0 h1
  exact ⟨by simp [Ffi.failed, h0, h1], by simp [Wrapper.failed, h0, h1]⟩

/-- Witness for C5 at the invalid failed response `5`. -/
theorem failed_response_mapping_witness :
    (5 : Int) ≠ 0 ∧
      Ffi.failed 5 = Except.error ⟨SolverErrorKind.Response (ResponseError.Failed 5)⟩ :=
  ⟨by decide, (failed_response_mapping.2.2.2.2 5 (by decide) (by decide)).1⟩

lemma add_clause_loop_eq_map (lits : List Lit) :
    Ffi.add_clause_loop lits = lits.map fun l => IpasirCall.add l.to_raw := by
  induction lits with
  | nil => rfl
  | cons l ls ih => simp [Ffi.add_clause_loop, ih]

/-- C6: `add_clause` on the native handle emits exactly `N + 1` `ipasir_add`
calls for an `N`-literal clause: one per literal carrying that literal's raw
value, in iteration order, followed by a single final call carrying `0`. -/
theorem add_clause_trace (lits : List Lit) :
    Ffi.add_clause_calls lits
      = (lits.map fun l => IpasirCall.add l.to_raw) ++ [IpasirCall.add 0] ∧
    (Ffi.add_clause_calls lits).length = lits.length + 1 := by
  constructor
  · simp [Ffi.add_clause_calls, add_clause_loop_eq_map]
  · simp [Ffi.add_clause_calls, add_clause_loop_eq_map]

/-- C7 counterexample: the claim asserts that after `solve()` on the test
backend, `failed()` signals a protocol-state error rather than returning a
result; in the source `TestSolver::failed` returns the result `Ok(false)`. -/
theorem test_failed_returns_ok :
    TestSolver.failed (TestSolver.solve TestSolver.init).1 ⟨1⟩ = Except.ok false := rfl

/-- C7: as amended. On the test backend `solve()` transitions the state to
satisfiable and reports satisfiable; afterwards `val()` succeeds with
don't-care; `failed()` on the same instance also succeeds, returning
`Ok(false)` — it performs no state check and signals no error. -/
theorem test_backend_after_solve (lit : Lit) :
    (TestSolver.solve TestSolver.init).1.state = SolverState.Sat ∧
    (TestSolver.solve TestSolver.init).2 = Except.ok SolveResponse.Sat ∧
    TestSolver.val (TestSolver.solve TestSolver.init).1 lit = Except.ok LitValue.DontCare ∧
    TestSolver.failed (TestSolver.solve TestSolver.init).1 lit = Except.ok false :=
  ⟨rfl, rfl, rfl, rfl⟩

/-- C8 counterexample: the claim asserts that after `solve()` the solver's
set of pending assumptions is empty; on the test backend, after assuming
literal `5` and solving, the pending assumptions still hold literal `5`. -/
theorem test_assumptions_survive_solve :
    (TestSolver.solve (TestSolver.assume TestSolver.init ⟨5⟩)).1.assumptions
      = [Lit.mk 5] := by decide

/-- C8: as amended. On the test backend, `assume` appends the literal to the
pending assumptions, and `solve()` leaves both the pending assumptions and
the clause set unchanged — in particular it does not clear the assumptions. -/
theorem test_assume_solve_frame (s : TestSolver) (lit : Lit) :
    (TestSolver.assume s lit).assumptions = s.assumptions ++ [lit] ∧
    (TestSolver.solve s).1.assumptions = s.assumptions ∧
    (TestSolver.solve s).1.clauses = s.clauses :=
  ⟨rfl, rfl, rfl⟩

lemma runFwd_eq (l : List Lit) :
    ∀ fuel, l.length ≤ fuel → LitIter.runFwd fuel ⟨l⟩ = l := by
  induction l with
  | nil =>
    intro fuel _
    cases fuel with
    | zero => rfl
    | succ n => simp [LitIter.runFwd, LitIter.next]
  | cons x xs ih =>
    intro fuel h
    cases fuel with
    | zero => exact absurd h (by simp)
    | succ n =>
      simp only [LitIter.runFwd, LitIter.next]
      exact congrArg (x :: ·) (ih n (by simpa using h))

lemma runBwd_eq (l : List Lit) :
    ∀ fuel, l.length ≤ fuel → LitIter.runBwd fuel ⟨l⟩ = l.reverse := by
  induction l using List.reverseRecOn with
  | nil =>
    intro fuel _
    cases fuel with
    | zero => rfl
    | succ n => simp [LitIter.runBwd, LitIter.next_back]
  | append_singleton ys y ih =>
    intro fuel h
    cases fuel with
    | zero => exact absurd h (by simp)
    | succ n =>
      simp only [LitIter.runBwd, LitIter.next_back, List.getLast?_concat,
        List.dropLast_concat]
      rw [ih n (by simpa using h)]
      simp

lemma toListFwd_eq (it : LitIter) : it.toListFwd = it.iter := by
  obtain ⟨l⟩ := it
  exact runFwd_eq l l.length le_rfl

lemma toListBwd_eq (it : LitIter) : it.toListBwd = it.iter.reverse := by
  obtain ⟨l⟩ := it
  exact runBwd_eq l l.length le_rfl

/-- C9: the clause view over a borrowed literal sequence reports its exact
length, is empty exactly when the sequence is, forward iteration yields the
literals in order, backward iteration yields them reversed, and every
iterator state reports as its length exactly the number of literals still to
be yielded (in either direction). -/
theorem clause_view_traversal (lits : List Lit) :
    (Clause.mk lits).len = lits.length ∧
    ((Clause.mk lits).is_empty = true ↔ lits = []) ∧
    (Clause.mk lits).iter.toListFwd = lits ∧
    (Clause.mk lits).iter.toListBwd = lits.reverse ∧
    (∀ it : LitIter, it.len = it.toListFwd.length ∧ it.len = it.toListBwd.length) := by
  refine ⟨rfl, ?_, toListFwd_eq _, toListBwd_eq _, fun it => ?_⟩
  · simp [Clause.is_empty, List.length_eq_zero]
  · rw [toListFwd_eq, toListBwd_eq]
    simp [LitIter.len]

lemma lenLoop_finds (arr : Nat → Int) :
    ∀ fuel cur acc k, cur ≤ k → k < cur + fuel → arr k = 0 →
      ∃ z, cur ≤ z ∧ z ≤ k ∧ arr z = 0 ∧ (∀ j, cur ≤ j → j < z → arr j ≠ 0) ∧
        WClause.lenLoop arr fuel cur acc = some (acc + (z - cur)) := by
  intro fuel
  induction fuel with
  | zero =>
    intro cur acc k hck hkf _
    exact absurd hkf (by omega)
  | succ n ih =>
    intro cur acc k hck hkf hk
    by_cases h : arr cur = 0
    · exact ⟨cur, le_rfl, hck, h, fun j hj hj2 => absurd hj2 (by omega),
        by simp [WClause.lenLoop, h]⟩
    · have hck2 : cur + 1 ≤ k := by
        rcases Nat.lt_or_ge cur k with hlt | hge
        · omega
        · have : cur = k := by omega
          exact absurd (this ▸ h) (by simp [hk])
      obtain ⟨z, hz1, hz2, hz3, hz4, hz5⟩ :=
        ih (cur + 1) (acc + 1) k hck2 (by omega) hk
      refine ⟨z, by omega, hz2, hz3, ?_, ?_⟩
      · intro j hj hj2
        rcases Nat.eq_or_lt_of_le hj with he | hlt
        · exact he ▸ h
        · exact hz4 j (by omega) hj2
      · rw [show WClause.lenLoop arr (n + 1) cur acc
            = WClause.lenLoop arr n (cur + 1) (acc + 1) by simp [WClause.lenLoop, h]]
        rw [hz5]
        exact congrArg some (by omega)

lemma least_zero_unique (arr : Nat → Int) {a b : Nat}
    (ha0 : arr a = 0) (ha : ∀ j, j < a → arr j ≠ 0)
    (hb0 : arr b = 0) (hb : ∀ j, j < b → arr j ≠ 0) : a = b := by
  rcases lt_trichotomy a b with h | h | h
  · exact absurd ha0 (hb a h)
  · exact h
  · exact absurd hb0 (ha b h)

/-- C10: under the precondition that the array behind the wrapper clause's
pointer has a zero entry at index `k`, the length scan of `Clause::len`
terminates (within any fuel above `k`) at the index `L` of the first zero
entry, and `Clause::get` is total: it returns `None` for every `i ≥ L` and
`Some` of the `i`-th literal for every `i < L`, never trapping. -/
theorem wclause_get_total (arr : Nat → Int) (k : Nat) (hk : arr k = 0) :
    ∃ L, L ≤ k ∧ arr L = 0 ∧ (∀ j, j < L → arr j ≠ 0) ∧
      ∀ fuel, k < fuel →
        WClause.lenLoop arr fuel 0 0 = some L ∧
        (∀ i, i < L → WClause.get arr fuel i = some (some (WLit.mk (arr i)))) ∧
        (∀ i, L ≤ i → WClause.get arr fuel i = some none) := by
  obtain ⟨z, _, hz2, hz3, hz4, _⟩ :=
    lenLoop_finds arr (k + 1) 0 0 k (Nat.zero_le k) (by omega) hk
  have hz4x : ∀ j, j < z → arr j ≠ 0 := fun j hj => hz4 j (Nat.zero_le j) hj
  refine ⟨z, hz2, hz3, hz4x, fun fuel hfuel => ?_⟩
  obtain ⟨w, _, _, hw3, hw4, hw5⟩ :=
    lenLoop_finds arr fuel 0 0 k (Nat.zero_le k) (by omega) hk
  have hwz : w = z :=
    least_zero_unique arr hw3 (fun j hj => hw4 j (Nat.zero_le j) hj) hz3 hz4x
  have hloop : WClause.lenLoop arr fuel 0 0 = some z := by
    rw [hw5, hwz]
    exact congrArg some (by omega)
  refine ⟨hloop, fun i hi => ?_, fun i hi => ?_⟩
  · simp [WClause.get, hloop, Nat.not_le.mpr hi]
  · simp [WClause.get, hloop, hi]

/-- Witness for C10 at the concrete zero-terminated array `[5, 0, 0, ...]`
(sentinel at index `1`). -/
theorem wclause_get_total_witness :
    (fun i => if i = 0 then (5 : Int) else 0) 1 = 0 ∧
    ∃ L, L ≤ 1 ∧ (fun i => if i = 0 then (5 : Int) else 0) L = 0 ∧
      (∀ j, j < L → (fun i => if i = 0 then (5 : Int) else 0) j ≠ 0) ∧
      ∀ fuel, 1 < fuel →
        WClause.lenLoop (fun i => if i = 0 then (5 : Int) else 0) fuel 0 0 = some L ∧
        (∀ i, i < L → WClause.get (fun i => if i = 0 then (5 : Int) else 0) fuel i
          = some (some (WLit.mk ((fun i => if i = 0 then (5 : Int) else 0) i)))) ∧
        (∀ i, L ≤ i → WClause.get (fun i => if i = 0 then (5 : Int) else 0) fuel i
          = some none) :=
  ⟨rfl, wclause_get_total (fun i => if i = 0 then (5 : Int) else 0) 1 rfl⟩
